import Mathlib

/-
Verification of the real-time vote-result fan-out subsystem of the
move37 polling service (src/services/voteService.js,
src/services/websocketService.js, src/middlewares/errorHandler.js,
src/models/*.js), against its natural-language specification.

The JavaScript code is shallowly embedded: the database is a record of
lists of rows, Prisma queries become list filters, stateful service
methods become explicit state-passing functions returning
`Sys × Except Err α` (a thrown exception is `.error`), and the JSON
objects written to WebSocket connections become values of an inductive
`JVal` type (the embedding of what `JSON.stringify` serializes).
`Number` arithmetic on vote counts is modelled exactly over the
integers: `Math.round((c / t) * 100)` for naturals `c ≤ t` is embedded
as `(200 * c + t) / (2 * t)` (floor division), which is the exact value
of `round-half-up (100 * c / t)`; for realistic vote counts the
binary64 evaluation agrees with the exact rational one.
-/

namespace Move37

/-- JSON-like values, the embedding of the JavaScript objects the
services build and serialize.  Object fields are kept in insertion
order, as in the source. -/
inductive JVal where
  | str (s : String)
  | num (n : Nat)
  | obj (fields : List (String × JVal))
  | arr (elems : List JVal)

/-- First field of a JSON object with the given key, `none` when the
value is not an object or lacks the key (property access on the
serialized message). -/
def jGet (k : String) : JVal → Option JVal
  | .obj fields => (fields.find? (fun f => f.1 = k)).map (fun f => f.2)
  | _ => none

/-- Error taxonomy of src/middlewares/errorHandler.js as thrown by the
service layer, plus `typeError` for JavaScript runtime TypeErrors
(reading a property of `undefined`). -/
inductive Err where
  | validation (msg : String)
  | notFound (msg : String)
  | forbidden (msg : String)
  | conflict (msg : String)
  | typeError (msg : String)
  deriving DecidableEq

/-- Decidable equality of call outcomes, for evaluating the embedded
services on concrete inputs. -/
instance exceptDecEq {ε α : Type} [DecidableEq ε] [DecidableEq α] :
    DecidableEq (Except ε α) := fun x y =>
  match x, y with
  | .ok a, .ok b =>
    if h : a = b then isTrue (by rw [h])
    else isFalse (fun hx => h (Except.ok.inj hx))
  | .error a, .error b =>
    if h : a = b then isTrue (by rw [h])
    else isFalse (fun hx => h (Except.error.inj hx))
  | .ok _, .error _ => isFalse (fun hx => Except.noConfusion hx)
  | .error _, .ok _ => isFalse (fun hx => Except.noConfusion hx)

/-- Poll row (prisma model `poll`): the fields this subsystem reads. -/
structure Poll where
  id : String
  question : String
  isPublished : Bool
  deriving DecidableEq

/-- PollOption row (prisma model `pollOption`). -/
structure PollOption where
  id : String
  pollId : String
  text : String
  deriving DecidableEq

/-- Vote row (prisma model `vote`).  `createdAt` is a millisecond
timestamp, as consumed by `Date.now() - new Date(createdAt).getTime()`. -/
structure Vote where
  id : String
  userId : String
  pollOptionId : String
  createdAt : Nat
  deriving DecidableEq

/-- The persisted state the subsystem queries and mutates. -/
structure DB where
  polls : List Poll
  options : List PollOption
  votes : List Vote
  deriving DecidableEq

/-- `models.Poll.find(id)` = `prisma.poll.findUnique({ where: { id } })`. -/
def pollFind (db : DB) (id : String) : Option Poll :=
  db.polls.find? (fun p => p.id = id)

/-- `models.PollOption.find(id)`. -/
def optionFind (db : DB) (id : String) : Option PollOption :=
  db.options.find? (fun o => o.id = id)

/-- A vote row as returned by a query, with the `pollOption` relation
either loaded (`some`) or not requested in the `include` (`none`,
i.e. the JavaScript property is `undefined`). -/
structure VoteRec where
  id : String
  userId : String
  pollOptionId : String
  createdAt : Nat
  pollOption : Option PollOption
  deriving DecidableEq

/-- `models.Vote.find(voteId)`: `BaseModel.find` is called without an
`include`, so the `pollOption` relation is not loaded. -/
def voteFind (db : DB) (id : String) : Option VoteRec :=
  (db.votes.find? (fun v => v.id = id)).map
    (fun v => { id := v.id, userId := v.userId, pollOptionId := v.pollOptionId,
                createdAt := v.createdAt, pollOption := none })

/-- Relation filter `pollOption: { pollId }` on a vote: the vote's
option exists and belongs to `pollId`. -/
def voteInPoll (db : DB) (pollId : String) (v : Vote) : Bool :=
  match optionFind db v.pollOptionId with
  | some o => o.pollId = pollId
  | none => false

/-- `Vote.getUserVotesForPoll(userId, pollId)`: findMany over votes
with `where: { userId, pollOption: { pollId } }` and
`include: { pollOption: true }`; `BaseModel.all` applies `take: 50`.
The `orderBy createdAt desc` is not modelled: callers in this
subsystem only consume emptiness of the list, which ordering does not
affect. -/
def getUserVotesForPoll (db : DB) (userId pollId : String) : List VoteRec :=
  ((db.votes.filter (fun v => v.userId = userId && voteInPoll db pollId v)).take 50).map
    (fun v => { id := v.id, userId := v.userId, pollOptionId := v.pollOptionId,
                createdAt := v.createdAt, pollOption := optionFind db v.pollOptionId })

/-- `VoteService.hasUserVotedOnPoll(pollId, userId)`. -/
def hasUserVotedOnPoll (db : DB) (pollId userId : String) : Except Err Bool :=
  if pollId = "" ∨ userId = "" then
    .error (.validation "Poll ID and User ID are required")
  else
    .ok (decide ((getUserVotesForPoll db userId pollId).length > 0))

/-- An option together with its loaded votes, as produced by
`Poll.findWithDetails`. -/
structure OptionWithVotes where
  option : PollOption
  votes : List Vote
  deriving DecidableEq

/-- Poll with the relations loaded by `Poll.findWithDetails(id)`:
`include: { options: { include: { votes: true } }, ... }`. -/
structure PollDetails where
  poll : Poll
  options : List OptionWithVotes
  deriving DecidableEq

/-- `Poll.findWithDetails(id)`. -/
def findWithDetails (db : DB) (id : String) : Option PollDetails :=
  (pollFind db id).map (fun p =>
    { poll := p,
      options := (db.options.filter (fun o => o.pollId = p.id)).map (fun o =>
        { option := o, votes := db.votes.filter (fun v => v.pollOptionId = o.id) }) })

/-- One option of a computed poll result, before percentages. -/
structure OptionCount where
  id : String
  text : String
  voteCount : Nat
  deriving DecidableEq

/-- One option of a computed poll result. -/
structure OptionResult where
  id : String
  text : String
  voteCount : Nat
  percentage : Nat
  deriving DecidableEq

/-- The derived PollResult value returned by `getPollResults`. -/
structure PollResult where
  question : String
  totalVotes : Nat
  results : List OptionResult
  deriving DecidableEq

/-- `Math.round((voteCount / totalVotes) * 100)` for naturals, exact:
round-half-up of `100 * c / t` equals `⌊(200 * c + t) / (2 * t)⌋`. -/
def roundPct (c t : Nat) : Nat :=
  (200 * c + t) / (2 * t)

/-- The tail of `getPollResults` once the poll details are loaded:
per-option counts (`option.votes.length`), `totalVotes` by `reduce`,
then the percentage spread. -/
def computePollResult (pd : PollDetails) : PollResult :=
  let results : List OptionCount := pd.options.map (fun ow =>
    { id := ow.option.id, text := ow.option.text, voteCount := ow.votes.length })
  let totalVotes : Nat := results.foldl (fun sum o => sum + o.voteCount) 0
  let resultsWithPercentages : List OptionResult := results.map (fun o =>
    { id := o.id, text := o.text, voteCount := o.voteCount,
      percentage := if totalVotes > 0 then roundPct o.voteCount totalVotes else 0 })
  { question := pd.poll.question, totalVotes := totalVotes,
    results := resultsWithPercentages }

/-- `VoteService.getPollResults(pollId)` (src/services/voteService.js,
lines 360-393): a read-only computation over the database. -/
def getPollResults (db : DB) (pollId : String) : Except Err PollResult :=
  if pollId = "" then
    .error (.validation "Poll ID is required")
  else
    match findWithDetails db pollId with
    | none => .error (.notFound "Poll not found")
    | some pd => .ok (computePollResult pd)

/-- Lookup in an insertion-ordered association list (JavaScript
`Map.get`, `undefined` as `none`). -/
def alistGet {K V : Type} [DecidableEq K] : List (K × V) → K → Option V
  | [], _ => none
  | (k, v) :: rest, key => if k = key then some v else alistGet rest key

/-- `Map.set`: replace the value of an existing key in place, or
append a new entry. -/
def alistSet {K V : Type} [DecidableEq K] : List (K × V) → K → V → List (K × V)
  | [], key, val => [(key, val)]
  | (k, v) :: rest, key, val =>
    if k = key then (k, val) :: rest else (k, v) :: alistSet rest key val

/-- `Map.delete`. -/
def alistDelete {K V : Type} [DecidableEq K] : List (K × V) → K → List (K × V)
  | [], _ => []
  | (k, v) :: rest, key => if k = key then rest else (k, v) :: alistDelete rest key

/-- JavaScript `Set.add`: no-op when present, else append (insertion
order preserved). -/
def setAdd {α : Type} [DecidableEq α] (s : List α) (x : α) : List α :=
  if x ∈ s then s else s ++ [x]

/-- JavaScript `Set.delete`. -/
def setDelete {α : Type} [DecidableEq α] (s : List α) (x : α) : List α :=
  s.filter (fun y => y ≠ x)

/-- `String.prototype.split(sep)` on the character list of a string:
groups between occurrences of the separator, in order. -/
def splitCharList (sep : Char) : List Char → List (List Char)
  | [] => [[]]
  | c :: cs =>
    match splitCharList sep cs with
    | [] => [[]]
    | g :: gs => if c = sep then [] :: g :: gs else (c :: g) :: gs

/-- `s.split(sep)` for a one-character separator. -/
def jsSplit (s : String) (sep : Char) : List String :=
  (splitCharList sep s.data).map (fun l => ⟨l⟩)

/-- State of the WebSocketService and its connections:
`subs` is `this.subscriptions` (pollId → Set of connections, here
connection ids); `connTags` holds each connection object's own
`ws.subscriptions` tag set; `conns` maps a connection id to its
`readyState` (1 = OPEN); `outbox` records every `ws.send` in order as
`(connection id, serialized JSON value)`. -/
structure WSState where
  subs : List (String × List Nat)
  connTags : List (Nat × List String)
  conns : List (Nat × Nat)
  outbox : List (Nat × JVal)

/-- `WebSocketService.send(ws, data)`: serialize and send only when
`ws.readyState === 1`. -/
def sendTo (st : WSState) (cid : Nat) (msg : JVal) : WSState :=
  if alistGet st.conns cid = some 1 then
    { st with outbox := st.outbox ++ [(cid, msg)] }
  else st

/-- The `ws.subscriptions` tag set of a connection. -/
def tagsOf (st : WSState) (cid : Nat) : List String :=
  (alistGet st.connTags cid).getD []

/-- `WebSocketService.handleSubscribeToPoll(ws, data)` (lines 79-118):
validates the poll against the database, then records the relation in
both directions and confirms. -/
def handleSubscribeToPoll (db : DB) (st : WSState) (cid : Nat)
    (pollId : Option String) : WSState :=
  match pollId with
  | none => sendTo st cid (.obj [("type", .str "error"),
      ("message", .str "Poll ID is required")])
  | some pid =>
    if pid = "" then
      sendTo st cid (.obj [("type", .str "error"),
        ("message", .str "Poll ID is required")])
    else
      match pollFind db pid with
      | none => sendTo st cid (.obj [("type", .str "error"),
          ("message", .str "Poll not found")])
      | some poll =>
        if ¬ poll.isPublished then
          sendTo st cid (.obj [("type", .str "error"),
            ("message", .str "Cannot subscribe to unpublished poll")])
        else
          let subs1 := if (alistGet st.subs pid).isSome then st.subs
                       else alistSet st.subs pid []
          let cur := (alistGet subs1 pid).getD []
          let subs2 := alistSet subs1 pid (setAdd cur cid)
          let ct := alistSet st.connTags cid (setAdd (tagsOf st cid) ("poll:" ++ pid))
          sendTo { st with subs := subs2, connTags := ct } cid
            (.obj [("type", .str "subscription_confirmed"),
                   ("pollId", .str pid),
                   ("message", .str "Subscribed to poll updates")])

/-- `WebSocketService.handleUnsubscribeFromPoll(ws, data)` (lines
123-142): guarded by `pollId && this.subscriptions.has(pollId)`;
inside the guard it removes the relation from both directions, prunes
an empty set, and confirms. -/
def handleUnsubscribeFromPoll (st : WSState) (cid : Nat)
    (pollId : Option String) : WSState :=
  match pollId with
  | none => st
  | some pid =>
    if pid ≠ "" ∧ (alistGet st.subs pid).isSome then
      let s := (alistGet st.subs pid).getD []
      let s1 := setDelete s cid
      let subs1 := alistSet st.subs pid s1
      let ct := alistSet st.connTags cid (setDelete (tagsOf st cid) ("poll:" ++ pid))
      let subs2 := if s1.isEmpty then alistDelete subs1 pid else subs1
      sendTo { st with subs := subs2, connTags := ct } cid
        (.obj [("type", .str "unsubscription_confirmed"),
               ("pollId", .str pid),
               ("message", .str "Unsubscribed from poll updates")])
    else st

/-- One iteration of the cleanup loop in `handleDisconnect`:
`const [type, id] = subscription.split(':')`, then conditional removal
from `this.subscriptions` with pruning of an emptied set. -/
def disconnectStep (cid : Nat) (subs : List (String × List Nat)) (tag : String) :
    List (String × List Nat) :=
  let parts := jsSplit tag ':'
  let ty := parts.headD ""
  match parts.get? 1 with
  | none => subs
  | some id =>
    if ty = "poll" ∧ (alistGet subs id).isSome then
      let s1 := setDelete ((alistGet subs id).getD []) cid
      if s1.isEmpty then alistDelete subs id else alistSet subs id s1
    else subs

/-- `WebSocketService.handleDisconnect(ws)` (lines 182-199): for every
tag in the connection's own `ws.subscriptions` set, remove the
connection from the poll→connections map, pruning emptied entries.
The connection's own tag set is not mutated by the source. -/
def handleDisconnect (st : WSState) (cid : Nat) : WSState :=
  { st with subs := (tagsOf st cid).foldl (disconnectStep cid) st.subs }

/-- The recipients of a broadcast: the subscriber set of the poll,
filtered to connections whose `readyState` is OPEN. -/
def openSubscribers (st : WSState) (pollId : String) : List Nat :=
  ((alistGet st.subs pollId).getD []).filter (fun cid => alistGet st.conns cid = some 1)

/-- The serialized envelope built by `broadcastToPoll`. -/
def pollUpdateMsg (pollId : String) (payload : JVal) (ts : String) : JVal :=
  .obj [("type", .str "poll_update"),
        ("pollId", .str pollId),
        ("data", payload),
        ("timestamp", .str ts)]

/-- `WebSocketService.broadcastToPoll(pollId, data)` (lines 204-221):
returns unchanged when the poll has no map entry; otherwise sends the
`poll_update` envelope to each subscribed connection with
`readyState === 1`. -/
def broadcastToPoll (st : WSState) (pollId : String) (payload : JVal)
    (ts : String) : WSState :=
  match alistGet st.subs pollId with
  | none => st
  | some clients =>
    let recip := clients.filter (fun cid => alistGet st.conns cid = some 1)
    { st with outbox := st.outbox ++ recip.map (fun cid => (cid, pollUpdateMsg pollId payload ts)) }

/-- The full system state threaded through the vote service: the
database plus the WebSocket server state. -/
structure Sys where
  db : DB
  ws : WSState

/-- The vote service's result read as invoked by the controller: the
method body performs a single `findWithDetails` read and no write, so
the system state passes through unchanged. -/
def getPollResultsCall (sys : Sys) (pollId : String) : Sys × Except Err PollResult :=
  (sys, getPollResults sys.db pollId)

/-- Serialization of a `PollResult` (the `results` value placed in the
broadcast payload). -/
def resultToJson (r : PollResult) : JVal :=
  .obj [("question", .str r.question),
        ("totalVotes", .num r.totalVotes),
        ("results", .arr (r.results.map (fun o =>
          .obj [("id", .str o.id), ("text", .str o.text),
                ("voteCount", .num o.voteCount),
                ("percentage", .num o.percentage)])))]

/-- The payload object built by `VoteService.broadcastVoteUpdate`
(lines 402-413): `type: "vote_update"` plus pollId, results, userId,
optionId and a timestamp. -/
def votePayloadJson (pollId : String) (results : PollResult)
    (userId optionId ts : String) : JVal :=
  .obj [("type", .str "vote_update"),
        ("pollId", .str pollId),
        ("results", resultToJson results),
        ("userId", .str userId),
        ("optionId", .str optionId),
        ("timestamp", .str ts)]

/-- `VoteService.broadcastVoteUpdate(pollId, results, userId, optionId)`:
hands the payload to `wss.broadcastToPoll`. -/
def broadcastVoteUpdate (st : WSState) (pollId : String) (results : PollResult)
    (userId optionId ts : String) : WSState :=
  broadcastToPoll st pollId (votePayloadJson pollId results userId optionId ts) ts

/-- The value returned by a successful `castVote`. -/
structure CastResult where
  vote : Vote
  results : PollResult
  deriving DecidableEq

/-- `VoteService.castVote(pollId, optionId, userId)` (lines 22-65).
`newVoteId` is the id the storage layer would generate for the created
row, `nowMs` the current clock, `ts` the ISO timestamp string. -/
def castVote (sys : Sys) (pollId optionId userId newVoteId : String)
    (nowMs : Nat) (ts : String) : Sys × Except Err CastResult :=
  if pollId = "" ∨ optionId = "" ∨ userId = "" then
    (sys, .error (.validation "Poll ID, Option ID, and User ID are required"))
  else
    match pollFind sys.db pollId with
    | none => (sys, .error (.notFound "Poll not found"))
    | some poll =>
      if ¬ poll.isPublished then
        (sys, .error (.forbidden "Cannot vote on unpublished poll"))
      else
        match optionFind sys.db optionId with
        | none => (sys, .error (.validation "Invalid option for this poll"))
        | some opt =>
          if opt.pollId ≠ pollId then
            (sys, .error (.validation "Invalid option for this poll"))
          else
            match hasUserVotedOnPoll sys.db pollId userId with
            | .error e => (sys, .error e)
            | .ok existingVote =>
              if existingVote then
                (sys, .error (.conflict "You have already voted on this poll"))
              else
                let v : Vote := { id := newVoteId, userId := userId,
                                  pollOptionId := optionId, createdAt := nowMs }
                let db1 : DB := { sys.db with votes := sys.db.votes ++ [v] }
                match getPollResults db1 pollId with
                | .error e => ({ db := db1, ws := sys.ws }, .error e)
                | .ok results =>
                  let ws1 := broadcastVoteUpdate sys.ws pollId results userId optionId ts
                  ({ db := db1, ws := ws1 }, .ok { vote := v, results := results })

/-- `VoteService.retractVote(voteId, userId)` (lines 318-353).
`models.Vote.find` loads no relation, so after the deletion the read
of `vote.pollOption.pollId` is a property access on `undefined`,
embedded as the `pollOption = none` branch throwing a TypeError. -/
def retractVote (sys : Sys) (voteId userId : String) (nowMs : Nat)
    (ts : String) : Sys × Except Err Bool :=
  if voteId = "" ∨ userId = "" then
    (sys, .error (.validation "Vote ID and User ID are required"))
  else
    match voteFind sys.db voteId with
    | none => (sys, .error (.notFound "Vote not found"))
    | some vote =>
      if vote.userId ≠ userId then
        (sys, .error (.forbidden "You can only retract your own votes"))
      else if (nowMs : Int) - (vote.createdAt : Int) > 3600000 then
        (sys, .error (.forbidden "Votes can only be retracted within 1 hour"))
      else
        let db1 : DB := { sys.db with votes := sys.db.votes.filter (fun w => w.id ≠ voteId) }
        match vote.pollOption with
        | none =>
          ({ db := db1, ws := sys.ws },
           .error (.typeError "Cannot read properties of undefined (reading pollId)"))
        | some po =>
          match getPollResults db1 po.pollId with
          | .error e => ({ db := db1, ws := sys.ws }, .error e)
          | .ok results =>
            let ws1 := broadcastVoteUpdate sys.ws po.pollId results userId vote.pollOptionId ts
            ({ db := db1, ws := ws1 }, .ok true)

/-- A JavaScript error object as seen by the error-handling
middleware: its `name`, `message`, the Prisma `code` and
`meta.target` when present, and the fields the `AppError` classes
set.  Absent properties are `none`. -/
structure JSError where
  name : String
  message : String
  code : Option String
  metaTarget : Option (List String)
  statusCode : Option Nat
  status : Option String
  isOperational : Bool
  errors : Option (List String)
  deriving DecidableEq

/-- The `AppError` constructor: status is "fail" when the decimal
string of the code starts with the character 4 (the source's
`startsWith("4")`, embedded as a first-character test on the digit
string, which is nonempty), "error" otherwise; `isOperational` is set.
JavaScript `Error` instances keep the default `name` "Error" (no
subclass overrides it). -/
def mkAppError (message : String) (statusCode : Nat) : JSError :=
  { name := "Error", message := message, code := none, metaTarget := none,
    statusCode := some statusCode,
    status := some (if (toString statusCode).data.headD ' ' = '4' then "fail" else "error"),
    isOperational := true, errors := none }

/-- `new ValidationError(message, errors)`: an `AppError` with code 400
and an `errors` array (present even when empty, as in the source's
default `errors = []`). -/
def mkValidationError (message : String) (errors : List String) : JSError :=
  { mkAppError message 400 with errors := some errors }

/-- `new NotFoundError(message)`. -/
def mkNotFoundError (message : String) : JSError := mkAppError message 404

/-- `new UnauthorizedError(message)`. -/
def mkUnauthorizedError (message : String) : JSError := mkAppError message 401

/-- `new ConflictError(message)`. -/
def mkConflictError (message : String) : JSError := mkAppError message 409

/-- `handlePrismaError(err)` (src/middlewares/errorHandler.js, lines
112-136): P2002 (unique constraint violation) becomes a
`ConflictError` naming the first constrained field. -/
def handlePrismaError (err : JSError) : JSError :=
  if err.code = some "P2002" then
    let f0 := (err.metaTarget.getD []).headD ""
    let field := if f0 = "" then "field" else f0
    mkConflictError ("A record with this " ++ field ++ " already exists")
  else if err.code = some "P2025" then
    mkNotFoundError "Record not found"
  else if err.code = some "P2003" then
    mkValidationError "Invalid reference ID provided" []
  else if err.code = some "P2000" then
    mkValidationError "Value too long for field" []
  else
    mkAppError "Database operation failed" 500

/-- The JSON body and status code the middleware responds with. -/
structure HttpResponse where
  statusCode : Nat
  status : String
  message : String
  errors : Option (List String)
  deriving DecidableEq

/-- The `errorHandler` middleware (src/middlewares/errorHandler.js,
lines 51-107): fill in defaults, rewrite known error shapes
(JWT, Prisma, validation), then answer with the error's own status
when it is operational and a bare 500 otherwise.  JavaScript
truthiness: a missing, zero or empty value falls back to the default;
an empty `errors` array is truthy. -/
def errorHandler (err0 : JSError) : HttpResponse :=
  let e1 : JSError := { err0 with
    statusCode := some (match err0.statusCode with
      | some n => if n = 0 then 500 else n
      | none => 500),
    status := some (match err0.status with
      | some s => if s = "" then "error" else s
      | none => "error"),
    message := if err0.message = "" then "Internal Server Error" else err0.message }
  let e2 := if e1.name = "JsonWebTokenError" then
      mkUnauthorizedError "Invalid token. Please log in again." else e1
  let e3 := if e2.name = "TokenExpiredError" then
      mkUnauthorizedError "Token expired. Please log in again." else e2
  let e4 := if e3.name = "PrismaClientKnownRequestError" then handlePrismaError e3 else e3
  let e5 := if e4.name = "PrismaClientValidationError" then
      mkValidationError "Invalid data provided" [] else e4
  let e6 := if e5.name = "ValidationError" ∨ e5.errors.isSome then
      mkValidationError "Validation failed" (e5.errors.getD []) else e5
  if e6.isOperational then
    { statusCode := e6.statusCode.getD 500, status := e6.status.getD "error",
      message := e6.message, errors := e6.errors }
  else
    { statusCode := 500, status := "error", message := e6.message, errors := none }

/-- The error `prisma.vote.create` raises when the insert violates a
uniqueness constraint: a `PrismaClientKnownRequestError` with code
P2002 and the constrained fields in `meta.target`.  `castVote` has no
try/catch around `Vote.create`, so this error propagates through
`catchAsync` to the `errorHandler` middleware unchanged. -/
def prismaUniqueViolation (target : List String) (msg : String) : JSError :=
  { name := "PrismaClientKnownRequestError", message := msg,
    code := some "P2002", metaTarget := some target,
    statusCode := none, status := none, isOperational := false, errors := none }

/-- No map entry holds an empty subscriber set. -/
def NoEmptyVal (m : List (String × List Nat)) : Prop :=
  ∀ p s, alistGet m p = some s → s ≠ []

/-- The registry invariant of pruned empty entries. -/
def NoEmptyEntry (st : WSState) : Prop := NoEmptyVal st.subs

/-- The connection is a member of the poll's subscriber set. -/
def SubsHasConn (st : WSState) (p : String) (cid : Nat) : Prop :=
  ∃ s, alistGet st.subs p = some s ∧ cid ∈ s

/-- The two registry maps agree: membership in a poll's subscriber set
coincides with the `poll:` tag in the connection's own set. -/
def Consistent (st : WSState) : Prop :=
  ∀ cid p, SubsHasConn st p cid ↔ ("poll:" ++ p) ∈ tagsOf st cid

/-- Registry keys are storage-generated identifiers and contain no
colon, the separator `handleDisconnect` splits tags on. -/
def ColonFreeKeys (st : WSState) : Prop :=
  ∀ p, (alistGet st.subs p).isSome → ':' ∉ p.data

/-- Well-formedness of a registry state, as established by
`initialize` (empty maps) and preserved by the handlers. -/
def WF (st : WSState) : Prop :=
  (st.subs.map Prod.fst).Nodup ∧ NoEmptyEntry st ∧ Consistent st ∧ ColonFreeKeys st

/-- A concrete database for witnesses: one published poll with two
options and a single vote on the first. -/
def dbEx : DB :=
  { polls := [{ id := "p1", question := "Q", isPublished := true }],
    options := [{ id := "o1", pollId := "p1", text := "A" },
                { id := "o2", pollId := "p1", text := "B" }],
    votes := [{ id := "v1", userId := "u1", pollOptionId := "o1", createdAt := 0 }] }

/-- A WebSocket server state with no connections, for witnesses. -/
def wsEmpty : WSState := { subs := [], connTags := [], conns := [], outbox := [] }

/-- The poll result `getPollResults dbEx "p1"` computes. -/
def rEx : PollResult :=
  { question := "Q", totalVotes := 1,
    results := [{ id := "o1", text := "A", voteCount := 1, percentage := 100 },
                { id := "o2", text := "B", voteCount := 0, percentage := 0 }] }

/-- A registry with one open connection (id 7) subscribed to poll p1
in both directions. -/
def wsSub : WSState :=
  { subs := [("p1", [7])], connTags := [(7, ["poll:p1"])], conns := [(7, 1)], outbox := [] }

/-- The system state used for the broadcast scenarios. -/
def sysC4 : Sys := { db := dbEx, ws := wsSub }

/-- The run of `castVote` in which user u2 votes for option o2 of the
subscribed poll. -/
def castC4 : Sys × Except Err CastResult := castVote sysC4 "p1" "o2" "u2" "v2" 5 "T"

/-- The poll result for p1 after u2's vote: two votes, one per option,
both at 50 percent. -/
def r50 : PollResult :=
  { question := "Q", totalVotes := 2,
    results := [{ id := "o1", text := "A", voteCount := 1, percentage := 50 },
                { id := "o2", text := "B", voteCount := 1, percentage := 50 }] }

/-- A registry whose map has no entry at all, with one open connection. -/
def stNoSub : WSState :=
  { subs := [], connTags := [(0, [])], conns := [(0, 1)], outbox := [] }

/-! Helper lemmas about the map/set embedding. -/

theorem alistGet_alistSet_self {K V : Type} [DecidableEq K] (m : List (K × V)) (k : K) (v : V) :
    alistGet (alistSet m k v) k = some v := by
  induction m with
  | nil => simp [alistGet, alistSet]
  | cons e rest ih =>
    by_cases h : e.1 = k
    · simp [alistSet, alistGet, h]
    · simpa [alistSet, alistGet, h] using ih

theorem alistGet_alistSet_ne {K V : Type} [DecidableEq K] (m : List (K × V)) (k k' : K) (v : V)
    (h : k' ≠ k) : alistGet (alistSet m k v) k' = alistGet m k' := by
  induction m with
  | nil =>
    have hk : ¬ k = k' := fun he => h he.symm
    simp [alistGet, alistSet, hk]
  | cons e rest ih =>
    by_cases he : e.1 = k
    · have hk : ¬ k = k' := fun hx => h hx.symm
      simp [alistSet, alistGet, he, hk]
    · by_cases he' : e.1 = k'
      · simp [alistSet, alistGet, he, he', h]
      · simpa [alistSet, alistGet, he, he'] using ih

theorem alistGet_alistDelete_ne {K V : Type} [DecidableEq K] (m : List (K × V)) (k k' : K)
    (h : k' ≠ k) : alistGet (alistDelete m k) k' = alistGet m k' := by
  induction m with
  | nil => simp [alistDelete]
  | cons e rest ih =>
    by_cases he : e.1 = k
    · have hk : ¬ k = k' := fun hx => h hx.symm
      simp [alistDelete, alistGet, he, hk]
    · by_cases he' : e.1 = k'
      · simp [alistDelete, alistGet, he, he', h]
      · simpa [alistDelete, alistGet, he, he'] using ih

theorem alistGet_eq_none_of_not_mem_keys {K V : Type} [DecidableEq K] (m : List (K × V)) (k : K)
    (h : k ∉ m.map Prod.fst) : alistGet m k = none := by
  induction m with
  | nil => simp [alistGet]
  | cons e rest ih =>
    simp only [List.map_cons, List.mem_cons] at h
    push_neg at h
    have h1 : ¬ e.1 = k := fun hx => h.1 hx.symm
    simp [alistGet, h1, ih h.2]

theorem alistGet_alistDelete_self {K V : Type} [DecidableEq K] (m : List (K × V)) (k : K)
    (nd : (m.map Prod.fst).Nodup) : alistGet (alistDelete m k) k = none := by
  induction m with
  | nil => simp [alistDelete, alistGet]
  | cons e rest ih =>
    simp only [List.map_cons, List.nodup_cons] at nd
    by_cases he : e.1 = k
    · have : k ∉ rest.map Prod.fst := he ▸ nd.1
      simpa [alistDelete, he] using alistGet_eq_none_of_not_mem_keys rest k this
    · simpa [alistDelete, alistGet, he] using ih nd.2

theorem keys_alistSet_present {K V : Type} [DecidableEq K] (m : List (K × V)) (k : K) (v : V)
    (h : (alistGet m k).isSome) : (alistSet m k v).map Prod.fst = m.map Prod.fst := by
  induction m with
  | nil => simp [alistGet] at h
  | cons e rest ih =>
    by_cases he : e.1 = k
    · simp [alistSet, he]
    · simp only [alistGet, he, if_false] at h
      simp [alistSet, he, ih h]

theorem keys_alistDelete_sublist {K V : Type} [DecidableEq K] (m : List (K × V)) (k : K) :
    List.Sublist ((alistDelete m k).map Prod.fst) (m.map Prod.fst) := by
  induction m with
  | nil => simp [alistDelete]
  | cons e rest ih =>
    by_cases he : e.1 = k
    · simp only [alistDelete, he, if_pos]
      exact (List.sublist_cons_self _ _)
    · simpa [alistDelete, he] using ih.cons₂ e.1

theorem nodup_keys_alistDelete {K V : Type} [DecidableEq K] (m : List (K × V)) (k : K)
    (nd : (m.map Prod.fst).Nodup) : ((alistDelete m k).map Prod.fst).Nodup :=
  nd.sublist (keys_alistDelete_sublist m k)

theorem mem_setAdd {α : Type} [DecidableEq α] (s : List α) (x y : α) :
    y ∈ setAdd s x ↔ y ∈ s ∨ y = x := by
  unfold setAdd
  by_cases h : x ∈ s
  · simp only [if_pos h]
    constructor
    · exact Or.inl
    · rintro (hy | rfl) <;> assumption
  · simp [if_neg h]

theorem setAdd_ne_nil {α : Type} [DecidableEq α] (s : List α) (x : α) : setAdd s x ≠ [] := by
  intro h
  have : x ∈ setAdd s x := (mem_setAdd s x x).mpr (Or.inr rfl)
  simp [h] at this

theorem mem_setDelete {α : Type} [DecidableEq α] (s : List α) (x y : α) :
    y ∈ setDelete s x ↔ y ∈ s ∧ y ≠ x := by
  simp [setDelete]

theorem not_mem_setDelete_self {α : Type} [DecidableEq α] (s : List α) (x : α) :
    x ∉ setDelete s x := by
  simp [mem_setDelete]

/-! Helper lemmas about the embedding of `String.prototype.split`. -/

theorem splitCharList_ne_nil (sep : Char) (l : List Char) : splitCharList sep l ≠ [] := by
  cases l with
  | nil => simp [splitCharList]
  | cons c cs =>
    unfold splitCharList
    cases h : splitCharList sep cs with
    | nil => simp
    | cons g gs =>
      by_cases hc : c = sep <;> simp [hc]

theorem splitCharList_of_not_mem (sep : Char) (l : List Char) (h : sep ∉ l) :
    splitCharList sep l = [l] := by
  induction l with
  | nil => rfl
  | cons c cs ih =>
    simp only [List.mem_cons] at h
    push_neg at h
    unfold splitCharList
    rw [ih h.2]
    have hc : ¬ c = sep := fun hx => h.1 hx.symm
    simp [hc]

theorem string_mk_data (s : String) : String.mk s.data = s := rfl

theorem jsSplit_poll_tag (p : String) (h : ':' ∉ p.data) :
    jsSplit ("poll:" ++ p) ':' = ["poll", p] := by
  have hd : ("poll:" ++ p).data = 'p' :: 'o' :: 'l' :: 'l' :: ':' :: p.data := by
    cases p
    rfl
  have h0 : splitCharList ':' p.data = [p.data] := splitCharList_of_not_mem ':' p.data h
  have h1 : splitCharList ':' (':' :: p.data) = [[], p.data] := by
    rw [splitCharList, h0]
    simp
  have h2 : splitCharList ':' ('l' :: ':' :: p.data) = [['l'], p.data] := by
    rw [splitCharList, h1]
    simp
  have h3 : splitCharList ':' ('l' :: 'l' :: ':' :: p.data) = [['l', 'l'], p.data] := by
    rw [splitCharList, h2]
    simp
  have h4 : splitCharList ':' ('o' :: 'l' :: 'l' :: ':' :: p.data) = [['o', 'l', 'l'], p.data] := by
    rw [splitCharList, h3]
    simp
  have h5 : splitCharList ':' ('p' :: 'o' :: 'l' :: 'l' :: ':' :: p.data) =
      [['p', 'o', 'l', 'l'], p.data] := by
    rw [splitCharList, h4]
    simp
  simp only [jsSplit, hd, h5]
  simp [string_mk_data p]

theorem string_append_cancel_left (a p q : String) (h : a ++ p = a ++ q) : p = q := by
  cases a with
  | mk da =>
    cases p with
    | mk dp =>
      cases q with
      | mk dq =>
        have hd : da ++ dp = da ++ dq := congrArg String.data h
        exact congrArg String.mk (List.append_cancel_left hd)

/-! Arithmetic of the percentage rounding. -/

/-- Modelled from the spec: `round(100 * voteCount / totalVotes)`,
round-half-up over the exact rationals. -/
def specRoundedPercentage (c t : Nat) : Nat :=
  ⌊100 * (c : ℚ) / (t : ℚ) + 1 / 2⌋₊

theorem specRoundedPercentage_eq_roundPct (c t : Nat) (ht : 0 < t) :
    specRoundedPercentage c t = roundPct c t := by
  unfold specRoundedPercentage roundPct
  have htq : (t : ℚ) ≠ 0 := Nat.cast_ne_zero.mpr ht.ne'
  have hx : 100 * (c : ℚ) / (t : ℚ) + 1 / 2 = ((200 * c + t : ℕ) : ℚ) / ((2 * t : ℕ) : ℚ) := by
    push_cast
    field_simp
    ring
  rw [hx, Nat.floor_div_nat, Nat.floor_natCast]

theorem roundPct_le (c t : Nat) : 2 * t * roundPct c t ≤ 200 * c + t := by
  unfold roundPct
  have h := Nat.div_add_mod (200 * c + t) (2 * t)
  omega

theorem le_roundPct (c t : Nat) (ht : 0 < t) :
    200 * c + t + 1 ≤ 2 * t * roundPct c t + 2 * t := by
  unfold roundPct
  have h := Nat.div_add_mod (200 * c + t) (2 * t)
  have hm : (200 * c + t) % (2 * t) < 2 * t := Nat.mod_lt _ (by omega)
  omega

theorem sum_roundPct_bounds (cs : List Nat) (t : Nat) (ht : 0 < t) :
    2 * t * (cs.map (fun c => roundPct c t)).sum ≤ 200 * cs.sum + cs.length * t ∧
    200 * cs.sum + cs.length * t + cs.length ≤
      2 * t * (cs.map (fun c => roundPct c t)).sum + cs.length * (2 * t) := by
  induction cs with
  | nil => simp
  | cons c rest ih =>
    have h1 := roundPct_le c t
    have h2 := le_roundPct c t ht
    obtain ⟨ihu, ihl⟩ := ih
    simp only [List.map_cons, List.sum_cons, List.length_cons]
    constructor
    · have : 2 * t * (roundPct c t + (rest.map (fun c => roundPct c t)).sum) =
          2 * t * roundPct c t + 2 * t * (rest.map (fun c => roundPct c t)).sum := by ring
      rw [this]
      have hgoal : 200 * (c + rest.sum) + (rest.length + 1) * t =
          (200 * c + t) + (200 * rest.sum + rest.length * t) := by ring
      rw [hgoal]
      exact Nat.add_le_add h1 ihu
    · have he : 2 * t * (roundPct c t + (rest.map (fun c => roundPct c t)).sum) +
          (rest.length + 1) * (2 * t) =
          (2 * t * roundPct c t + 2 * t) +
            (2 * t * (rest.map (fun c => roundPct c t)).sum + rest.length * (2 * t)) := by ring
      rw [he]
      have hgoal : 200 * (c + rest.sum) + (rest.length + 1) * t + (rest.length + 1) =
          (200 * c + t + 1) + (200 * rest.sum + rest.length * t + rest.length) := by ring
      rw [hgoal]
      exact Nat.add_le_add h2 ihl

theorem sum_roundPct_near_100 (cs : List Nat) (t : Nat) (ht : 0 < t) (hsum : cs.sum = t) :
    200 ≤ 2 * (cs.map (fun c => roundPct c t)).sum + cs.length ∧
    2 * (cs.map (fun c => roundPct c t)).sum ≤ 200 + cs.length := by
  obtain ⟨hu, hl⟩ := sum_roundPct_bounds cs t ht
  rw [hsum] at hu hl
  set S := (cs.map (fun c => roundPct c t)).sum with hS
  set n := cs.length with hn
  constructor
  · -- from 200 * t + n * t + n ≤ 2 * t * S + n * (2 * t)
    have h1 : t * 200 ≤ t * (2 * S + n) := by nlinarith
    exact Nat.le_of_mul_le_mul_left h1 ht
  · have h2 : t * (2 * S) ≤ t * (200 + n) := by nlinarith
    exact Nat.le_of_mul_le_mul_left h2 ht

/-! Characterization of `getPollResults`. -/

theorem foldl_add_eq_sum {α : Type} (f : α → Nat) (l : List α) (a : Nat) :
    l.foldl (fun s o => s + f o) a = a + (l.map f).sum := by
  induction l generalizing a with
  | nil => simp
  | cons x xs ih =>
    simp only [List.foldl_cons, List.map_cons, List.sum_cons]
    rw [ih]
    ring

theorem computePollResult_totalVotes (pd : PollDetails) :
    (computePollResult pd).totalVotes =
      ((computePollResult pd).results.map (fun o => o.voteCount)).sum := by
  unfold computePollResult
  simp only [List.map_map, foldl_add_eq_sum, Nat.zero_add]
  congr 1

theorem computePollResult_percentage (pd : PollDetails) (o : OptionResult)
    (ho : o ∈ (computePollResult pd).results) :
    o.percentage = if 0 < (computePollResult pd).totalVotes then
      roundPct o.voteCount (computePollResult pd).totalVotes else 0 := by
  revert ho
  unfold computePollResult
  simp only [List.mem_map, gt_iff_lt]
  rintro ⟨c, hc, rfl⟩
  rfl

theorem getPollResults_ok_inv (db : DB) (pid : String) (r : PollResult)
    (hok : getPollResults db pid = .ok r) :
    pid ≠ "" ∧ ∃ pd, findWithDetails db pid = some pd ∧ r = computePollResult pd := by
  unfold getPollResults at hok
  by_cases hp : pid = ""
  · simp [hp] at hok
  · rw [if_neg hp] at hok
    cases hfd : findWithDetails db pid with
    | none => rw [hfd] at hok; exact absurd hok (by simp)
    | some pd =>
      rw [hfd] at hok
      exact ⟨hp, pd, rfl, (Except.ok.inj hok).symm⟩

theorem getPollResults_not_found (db : DB) (pid : String) (hp : pid ≠ "")
    (hnf : pollFind db pid = none) :
    getPollResults db pid = .error (.notFound "Poll not found") := by
  have hfd : findWithDetails db pid = none := by
    unfold findWithDetails
    rw [hnf]
    rfl
  unfold getPollResults
  rw [if_neg hp, hfd]

theorem getPollResults_of_pollFind_some (db : DB) (pid : String) (p : Poll) (hp : pid ≠ "")
    (hfind : pollFind db pid = some p) :
    ∃ r, getPollResults db pid = .ok r := by
  unfold getPollResults
  rw [if_neg hp]
  unfold findWithDetails
  rw [hfind]
  exact ⟨_, rfl⟩

/-- Claim C3: for an existing poll, `getPollResults` returns a result
whose `totalVotes` is the sum of the per-option vote counts, with each
percentage the rounded share (`0` when `totalVotes` is `0`); for an
absent poll it fails with NotFound; and the operation performs no
mutation (the system state passes through `getPollResultsCall`
unchanged). -/
theorem getPollResults_contract (db : DB) (pid : String) :
    (pid ≠ "" → pollFind db pid = none →
      getPollResults db pid = .error (.notFound "Poll not found")) ∧
    (∀ r, getPollResults db pid = .ok r →
      r.totalVotes = (r.results.map (fun o => o.voteCount)).sum ∧
      (∀ o, o ∈ r.results →
        o.percentage = if 0 < r.totalVotes then
          specRoundedPercentage o.voteCount r.totalVotes else 0)) ∧
    (∀ sys : Sys, (getPollResultsCall sys pid).1 = sys) := by
  refine ⟨fun hp hnf => getPollResults_not_found db pid hp hnf, fun r hok => ?_, fun sys => rfl⟩
  obtain ⟨hp, pd, hfd, rfl⟩ := getPollResults_ok_inv db pid r hok
  refine ⟨computePollResult_totalVotes pd, fun o ho => ?_⟩
  rw [computePollResult_percentage pd o ho]
  by_cases hpos : 0 < (computePollResult pd).totalVotes
  · rw [if_pos hpos, if_pos hpos,
      specRoundedPercentage_eq_roundPct o.voteCount _ hpos]
  · rw [if_neg hpos, if_neg hpos]

/-- Witness for C3 at a concrete database: a poll with two options and
one vote; the absent poll branch and the computed result both follow
from the contract theorem. -/
theorem getPollResults_contract_witness :
    getPollResults dbEx "p9" = .error (.notFound "Poll not found") :=
  (getPollResults_contract dbEx "p9").1 (by decide) (by decide)

/-- Claim C5: when `totalVotes > 0`, the option vote counts sum to
`totalVotes` and the percentage sum is within half the number of
options of 100 (twice the distance is at most the option count). -/
theorem poll_result_percentages_sum (db : DB) (pid : String) (r : PollResult)
    (hok : getPollResults db pid = .ok r) (hpos : 0 < r.totalVotes) :
    (r.results.map (fun o => o.voteCount)).sum = r.totalVotes ∧
    ((((r.results.map (fun o => o.percentage) : List Nat).sum : Nat) : ℤ) - 100).natAbs * 2 ≤
      r.results.length := by
  obtain ⟨hp, pd, hfd, rfl⟩ := getPollResults_ok_inv db pid r hok
  have htot := computePollResult_totalVotes pd
  refine ⟨htot.symm, ?_⟩
  set t := (computePollResult pd).totalVotes with hts
  have hpcts : (computePollResult pd).results.map (fun o => o.percentage) =
      ((computePollResult pd).results.map (fun o => o.voteCount)).map
        (fun c => roundPct c t) := by
    rw [List.map_map]
    refine List.map_congr_left (fun o ho => ?_)
    have := computePollResult_percentage pd o ho
    rw [← hts] at this
    simp only [Function.comp]
    rw [this, if_pos hpos]
  have hsum : ((computePollResult pd).results.map (fun o => o.voteCount)).sum = t := htot.symm
  have hlen : (((computePollResult pd).results.map (fun o => o.voteCount))).length =
      (computePollResult pd).results.length := List.length_map _ _
  obtain ⟨hlo, hhi⟩ := sum_roundPct_near_100
    ((computePollResult pd).results.map (fun o => o.voteCount)) t hpos hsum
  rw [hpcts]
  rw [hlen] at hlo hhi
  omega

/-- Witness for C5: one vote on the first of two options gives
percentages 100 and 0, summing exactly to 100. -/
theorem poll_result_percentages_sum_witness :
    (rEx.results.map (fun o => o.voteCount)).sum = rEx.totalVotes ∧
    ((((rEx.results.map (fun o => o.percentage) : List Nat).sum : Nat) : ℤ) - 100).natAbs * 2 ≤
      rEx.results.length :=
  poll_result_percentages_sum dbEx "p1" rEx rfl (by decide)

/-! Characterization of `castVote`. -/

theorem hasUserVotedOnPoll_eval (db : DB) (pollId userId : String)
    (hp : pollId ≠ "") (hu : userId ≠ "") :
    hasUserVotedOnPoll db pollId userId =
      .ok (decide ((getUserVotesForPoll db userId pollId).length > 0)) := by
  simp [hasUserVotedOnPoll, hp, hu]

theorem pollFind_votes_irrelevant (db : DB) (vs : List Vote) (pid : String) :
    pollFind { db with votes := vs } pid = pollFind db pid := rfl

/-- Claim C1: `castVote` checks its preconditions in order, each with
its own error kind: absent poll → NotFound; unpublished poll →
Forbidden; absent or foreign option → InvalidInput (ValidationError);
existing vote by this user for this poll → Conflict; otherwise a vote
row is appended and the call succeeds. -/
theorem castVote_preconditions_in_order (sys : Sys)
    (pollId optionId userId newVoteId : String) (nowMs : Nat) (ts : String)
    (hp : pollId ≠ "") (ho : optionId ≠ "") (hu : userId ≠ "") :
    (pollFind sys.db pollId = none →
      castVote sys pollId optionId userId newVoteId nowMs ts =
        (sys, .error (.notFound "Poll not found"))) ∧
    (∀ poll, pollFind sys.db pollId = some poll → poll.isPublished = false →
      castVote sys pollId optionId userId newVoteId nowMs ts =
        (sys, .error (.forbidden "Cannot vote on unpublished poll"))) ∧
    (∀ poll, pollFind sys.db pollId = some poll → poll.isPublished = true →
      (optionFind sys.db optionId = none ∨
        (∃ opt, optionFind sys.db optionId = some opt ∧ opt.pollId ≠ pollId)) →
      castVote sys pollId optionId userId newVoteId nowMs ts =
        (sys, .error (.validation "Invalid option for this poll"))) ∧
    (∀ poll opt, pollFind sys.db pollId = some poll → poll.isPublished = true →
      optionFind sys.db optionId = some opt → opt.pollId = pollId →
      (getUserVotesForPoll sys.db userId pollId).length > 0 →
      castVote sys pollId optionId userId newVoteId nowMs ts =
        (sys, .error (.conflict "You have already voted on this poll"))) ∧
    (∀ poll opt, pollFind sys.db pollId = some poll → poll.isPublished = true →
      optionFind sys.db optionId = some opt → opt.pollId = pollId →
      (getUserVotesForPoll sys.db userId pollId).length = 0 →
      ∃ results sys1,
        castVote sys pollId optionId userId newVoteId nowMs ts =
          (sys1, .ok { vote := { id := newVoteId, userId := userId,
                                 pollOptionId := optionId, createdAt := nowMs },
                       results := results }) ∧
        sys1.db.votes = sys.db.votes ++
          [{ id := newVoteId, userId := userId, pollOptionId := optionId,
             createdAt := nowMs }]) := by
  have hguard : ¬ (pollId = "" ∨ optionId = "" ∨ userId = "") := by
    push_neg
    exact ⟨hp, ho, hu⟩
  refine ⟨?_, ?_, ?_, ?_, ?_⟩
  · intro hnf
    simp [castVote, hguard, hnf]
  · intro poll hpf hpub
    simp [castVote, hguard, hpf, hpub]
  · intro poll hpf hpub hopt
    rcases hopt with hnone | ⟨opt, hsome, hne⟩
    · simp [castVote, hguard, hpf, hpub, hnone]
    · simp [castVote, hguard, hpf, hpub, hsome, hne]
  · intro poll opt hpf hpub hopt heq hvoted
    have hv := hasUserVotedOnPoll_eval sys.db pollId userId hp hu
    simp [castVote, hguard, hpf, hpub, hopt, heq, hv, hvoted]
  · intro poll opt hpf hpub hopt heq hnone
    have hv := hasUserVotedOnPoll_eval sys.db pollId userId hp hu
    have hnv : decide ((getUserVotesForPoll sys.db userId pollId).length > 0) = false := by
      simp [hnone]
    obtain ⟨r, hr⟩ := getPollResults_of_pollFind_some
      { sys.db with votes := sys.db.votes ++
          [{ id := newVoteId, userId := userId, pollOptionId := optionId,
             createdAt := nowMs }] }
      pollId poll hp (by rw [pollFind_votes_irrelevant]; exact hpf)
    refine ⟨r,
      { db := { sys.db with votes := sys.db.votes ++
            [{ id := newVoteId, userId := userId, pollOptionId := optionId,
               createdAt := nowMs }] },
        ws := broadcastVoteUpdate sys.ws pollId r userId optionId ts }, ?_, ?_⟩
    · simp [castVote, hguard, hpf, hpub, hopt, heq, hv, hnv, hr]
    · rfl

/-- Witness for C1 at the example database: the absent-poll branch of
the ordered-precondition theorem. -/
theorem castVote_preconditions_witness :
    castVote { db := dbEx, ws := wsEmpty } "p9" "o1" "u1" "v9" 0 "T" =
      ({ db := dbEx, ws := wsEmpty }, .error (.notFound "Poll not found")) :=
  (castVote_preconditions_in_order _ "p9" "o1" "u1" "v9" 0 "T"
    (by decide) (by decide) (by decide)).1 (by decide)

/-- Claim C6: a `castVote` call that fails leaves the system exactly
as it was: no vote row is created and nothing is sent or broadcast. -/
theorem castVote_failure_no_partial_effect (sys : Sys)
    (pollId optionId userId newVoteId : String) (nowMs : Nat) (ts : String) (e : Err)
    (herr : (castVote sys pollId optionId userId newVoteId nowMs ts).2 = .error e) :
    (castVote sys pollId optionId userId newVoteId nowMs ts).1 = sys := by
  by_cases hguard : pollId = "" ∨ optionId = "" ∨ userId = ""
  · simp [castVote, hguard]
  · have hp : pollId ≠ "" := fun h => hguard (Or.inl h)
    have ho : optionId ≠ "" := fun h => hguard (Or.inr (Or.inl h))
    have hu : userId ≠ "" := fun h => hguard (Or.inr (Or.inr h))
    cases hpf : pollFind sys.db pollId with
    | none => simp [castVote, hguard, hpf]
    | some poll =>
      by_cases hpub : poll.isPublished
      · cases hopt : optionFind sys.db optionId with
        | none => simp [castVote, hguard, hpf, hpub, hopt]
        | some opt =>
          by_cases heq : opt.pollId = pollId
          · have hv := hasUserVotedOnPoll_eval sys.db pollId userId hp hu
            by_cases hvoted : (getUserVotesForPoll sys.db userId pollId).length > 0
            · simp [castVote, hguard, hpf, hpub, hopt, heq, hv, hvoted]
            · obtain ⟨r, hr⟩ := getPollResults_of_pollFind_some
                { sys.db with votes := sys.db.votes ++
                    [{ id := newVoteId, userId := userId, pollOptionId := optionId,
                       createdAt := nowMs }] }
                pollId poll hp (by rw [pollFind_votes_irrelevant]; exact hpf)
              have hnv : decide ((getUserVotesForPoll sys.db userId pollId).length > 0) = false := by
                simp [hvoted]
              exfalso
              have : (castVote sys pollId optionId userId newVoteId nowMs ts).2 =
                  .ok { vote := { id := newVoteId, userId := userId,
                                  pollOptionId := optionId, createdAt := nowMs },
                        results := r } := by
                simp [castVote, hguard, hpf, hpub, hopt, heq, hv, hnv, hr]
              rw [this] at herr
              exact absurd herr (by simp)
          · simp [castVote, hguard, hpf, hpub, hopt, heq]
      · simp [castVote, hguard, hpf, hpub]

/-- Witness for C6: the conflict-path failure at the example database
(user u1 has already voted on p1) leaves the state unchanged. -/
theorem castVote_failure_no_partial_effect_witness :
    (castVote { db := dbEx, ws := wsEmpty } "p1" "o2" "u1" "v9" 0 "T").1 =
      { db := dbEx, ws := wsEmpty } :=
  castVote_failure_no_partial_effect _ "p1" "o2" "u1" "v9" 0 "T"
    (.conflict "You have already voted on this poll") (by decide)

/-! Claim C2: the retraction success path. -/

/-- Claim C2 (code bug): at a vote within the retraction window, owned
by the caller, `retractVote` deletes the vote row and then fails with
a TypeError instead of recomputing results, broadcasting and returning
success: `models.Vote.find` (BaseModel.find, no `include`) does not
load the `pollOption` relation, so `vote.pollOption.pollId` is a
property read on `undefined`.  Evaluated here on a concrete state: the
vote (1 second old, limit is 1 hour) is removed from the database, no
message is broadcast, and the call throws. -/
theorem retractVote_success_path_type_error :
    retractVote { db := dbEx, ws := wsEmpty } "v1" "u1" 1000 "T" =
      ({ db := { polls := dbEx.polls, options := dbEx.options, votes := [] }, ws := wsEmpty },
       .error (.typeError "Cannot read properties of undefined (reading pollId)")) := by
  rfl

/-! Claim C7: storage-level uniqueness violations surface as Conflict. -/

/-- Claim C7: any Prisma P2002 (uniqueness-constraint violation)
raised during vote creation propagates uncaught through `castVote` and
`catchAsync` to the `errorHandler` middleware, which answers it as an
operational Conflict response: HTTP 409, status "fail", and a
translated message naming the constrained field — never the raw
storage error. -/
theorem prisma_unique_violation_maps_to_conflict (target : List String) (msg : String) :
    (errorHandler (prismaUniqueViolation target msg)).statusCode = 409 ∧
    (errorHandler (prismaUniqueViolation target msg)).status = "fail" ∧
    (∃ f, (errorHandler (prismaUniqueViolation target msg)).message =
      "A record with this " ++ f ++ " already exists") ∧
    (errorHandler (prismaUniqueViolation target msg)).errors = none := by
  have hsw : (toString (409 : Nat)).data.headD ' ' = '4' := by decide
  have hsw2 : (toString (409 : Nat)).data.head?.getD ' ' = '4' := by decide
  refine ⟨?_, ?_, ⟨if target.headD "" = "" then "field" else target.headD "", ?_⟩, ?_⟩ <;>
    simp [errorHandler, prismaUniqueViolation, handlePrismaError,
      mkConflictError, mkAppError, hsw, hsw2]

/-! Registry lemmas: `sendTo`, `broadcastToPoll`, and the disconnect
cleanup loop. -/

theorem sendTo_subs (st : WSState) (cid : Nat) (msg : JVal) :
    (sendTo st cid msg).subs = st.subs := by
  unfold sendTo
  split <;> rfl

theorem sendTo_connTags (st : WSState) (cid : Nat) (msg : JVal) :
    (sendTo st cid msg).connTags = st.connTags := by
  unfold sendTo
  split <;> rfl

theorem broadcastToPoll_outbox (st : WSState) (pid : String) (payload : JVal) (ts : String) :
    (broadcastToPoll st pid payload ts).outbox =
      st.outbox ++ (openSubscribers st pid).map (fun c => (c, pollUpdateMsg pid payload ts)) := by
  unfold broadcastToPoll openSubscribers
  cases h : alistGet st.subs pid with
  | none => simp
  | some clients => simp

theorem isEmpty_iff_eq_nil {α : Type} (l : List α) : l.isEmpty = true ↔ l = [] := by
  cases l <;> simp

theorem disconnectStep_noEmpty (cid : Nat) (subs : List (String × List Nat)) (tag : String)
    (nd : (subs.map Prod.fst).Nodup) (hne : NoEmptyVal subs) :
    NoEmptyVal (disconnectStep cid subs tag) := by
  intro p s hget
  cases hid : (jsSplit tag ':').get? 1 with
  | none =>
    simp only [disconnectStep, hid] at hget
    exact hne p s hget
  | some id =>
    simp only [disconnectStep, hid] at hget
    by_cases hcond : ((jsSplit tag ':').headD "" = "poll" ∧ (alistGet subs id).isSome = true)
    · rw [if_pos hcond] at hget
      by_cases hemp : (setDelete ((alistGet subs id).getD []) cid).isEmpty = true
      · rw [if_pos hemp] at hget
        by_cases hp : p = id
        · rw [hp, alistGet_alistDelete_self subs id nd] at hget
          exact absurd hget (by simp)
        · rw [alistGet_alistDelete_ne subs id p hp] at hget
          exact hne p s hget
      · rw [if_neg hemp] at hget
        by_cases hp : p = id
        · rw [hp, alistGet_alistSet_self] at hget
          intro hnil
          have hs : setDelete ((alistGet subs id).getD []) cid = s := Option.some.inj hget
          rw [hs, hnil] at hemp
          exact hemp rfl
        · rw [alistGet_alistSet_ne subs id p _ hp] at hget
          exact hne p s hget
    · rw [if_neg hcond] at hget
      exact hne p s hget

theorem disconnectStep_nodup (cid : Nat) (subs : List (String × List Nat)) (tag : String)
    (nd : (subs.map Prod.fst).Nodup) :
    ((disconnectStep cid subs tag).map Prod.fst).Nodup := by
  cases hid : (jsSplit tag ':').get? 1 with
  | none => simpa only [disconnectStep, hid] using nd
  | some id =>
    simp only [disconnectStep, hid]
    by_cases hcond : ((jsSplit tag ':').headD "" = "poll" ∧ (alistGet subs id).isSome = true)
    · rw [if_pos hcond]
      by_cases hemp : (setDelete ((alistGet subs id).getD []) cid).isEmpty = true
      · rw [if_pos hemp]
        exact nodup_keys_alistDelete subs id nd
      · rw [if_neg hemp, keys_alistSet_present subs id _ hcond.2]
        exact nd
    · rw [if_neg hcond]
      exact nd

theorem disconnectStep_get_mem (cid : Nat) (subs : List (String × List Nat)) (tag p : String)
    (s : List Nat) (nd : (subs.map Prod.fst).Nodup)
    (hget : alistGet (disconnectStep cid subs tag) p = some s) (hc : cid ∈ s) :
    alistGet subs p = some s ∧ (':' ∉ p.data → tag ≠ "poll:" ++ p) := by
  cases hid : (jsSplit tag ':').get? 1 with
  | none =>
    simp only [disconnectStep, hid] at hget
    refine ⟨hget, fun hcf htag => ?_⟩
    rw [htag, jsSplit_poll_tag p hcf] at hid
    exact absurd hid (by simp)
  | some id =>
    simp only [disconnectStep, hid] at hget
    by_cases hcond : ((jsSplit tag ':').headD "" = "poll" ∧ (alistGet subs id).isSome = true)
    · rw [if_pos hcond] at hget
      by_cases hp : p = id
      · exfalso
        by_cases hemp : (setDelete ((alistGet subs id).getD []) cid).isEmpty = true
        · rw [if_pos hemp, hp, alistGet_alistDelete_self subs id nd] at hget
          exact absurd hget (by simp)
        · rw [if_neg hemp, hp, alistGet_alistSet_self] at hget
          rw [← Option.some.inj hget] at hc
          exact not_mem_setDelete_self _ cid hc
      · have hget2 : alistGet subs p = some s := by
          by_cases hemp : (setDelete ((alistGet subs id).getD []) cid).isEmpty = true
          · rw [if_pos hemp, alistGet_alistDelete_ne subs id p hp] at hget
            exact hget
          · rw [if_neg hemp, alistGet_alistSet_ne subs id p _ hp] at hget
            exact hget
        refine ⟨hget2, fun hcf htag => ?_⟩
        rw [htag, jsSplit_poll_tag p hcf] at hid
        simp only [List.get?] at hid
        exact hp (Option.some.inj hid)
    · rw [if_neg hcond] at hget
      refine ⟨hget, fun hcf htag => hcond ?_⟩
      have hsplit : jsSplit tag ':' = ["poll", p] := by
        rw [htag]
        exact jsSplit_poll_tag p hcf
      rw [hsplit] at hid
      simp only [List.get?] at hid
      have hidp : p = id := Option.some.inj hid
      constructor
      · rw [hsplit]
        rfl
      · rw [← hidp, hget]
        rfl

theorem disconnectStep_get_other (cid cid2 : Nat) (subs : List (String × List Nat))
    (tag p : String) (hne2 : cid2 ≠ cid) (nd : (subs.map Prod.fst).Nodup) :
    (∃ s, alistGet (disconnectStep cid subs tag) p = some s ∧ cid2 ∈ s) ↔
    (∃ s, alistGet subs p = some s ∧ cid2 ∈ s) := by
  cases hid : (jsSplit tag ':').get? 1 with
  | none => simp only [disconnectStep, hid]
  | some id =>
    simp only [disconnectStep, hid]
    by_cases hcond : ((jsSplit tag ':').headD "" = "poll" ∧ (alistGet subs id).isSome = true)
    · rw [if_pos hcond]
      by_cases hp : p = id
      · subst hp
        obtain ⟨s0, hs0⟩ := Option.isSome_iff_exists.mp hcond.2
        by_cases hemp : (setDelete ((alistGet subs p).getD []) cid).isEmpty = true
        · rw [if_pos hemp]
          rw [alistGet_alistDelete_self subs p nd]
          constructor
          · rintro ⟨s, hs, _⟩
            exact absurd hs (by simp)
          · rintro ⟨s, hs, hmem⟩
            rw [hs0] at hs
            cases Option.some.inj hs
            have hx : cid2 ∈ setDelete s0 cid := (mem_setDelete s0 cid cid2).mpr ⟨hmem, hne2⟩
            rw [hs0] at hemp
            simp only [Option.getD_some] at hemp
            rw [isEmpty_iff_eq_nil] at hemp
            rw [hemp] at hx
            exact absurd hx (List.not_mem_nil _)
        · rw [if_neg hemp, alistGet_alistSet_self, hs0]
          simp only [Option.getD_some, Option.some.injEq]
          constructor
          · rintro ⟨s, rfl, hmem⟩
            exact ⟨s0, rfl, ((mem_setDelete s0 cid cid2).mp hmem).1⟩
          · rintro ⟨s, rfl, hmem⟩
            exact ⟨setDelete s0 cid, rfl, (mem_setDelete s0 cid cid2).mpr ⟨hmem, hne2⟩⟩
      · by_cases hemp : (setDelete ((alistGet subs id).getD []) cid).isEmpty = true
        · rw [if_pos hemp, alistGet_alistDelete_ne subs id p hp]
        · rw [if_neg hemp, alistGet_alistSet_ne subs id p _ hp]
    · rw [if_neg hcond]

theorem disconnect_fold_nodup_noEmpty (cid : Nat) (tags : List String) :
    ∀ subs, (subs.map Prod.fst).Nodup → NoEmptyVal subs →
      ((tags.foldl (disconnectStep cid) subs).map Prod.fst).Nodup ∧
      NoEmptyVal (tags.foldl (disconnectStep cid) subs) := by
  induction tags with
  | nil => exact fun subs nd hne => ⟨nd, hne⟩
  | cons t ts ih =>
    intro subs nd hne
    simp only [List.foldl_cons]
    exact ih _ (disconnectStep_nodup cid subs t nd) (disconnectStep_noEmpty cid subs t nd hne)

theorem disconnect_fold_removes (cid : Nat) (tags : List String) :
    ∀ subs, (subs.map Prod.fst).Nodup →
      (∀ p s, alistGet subs p = some s → cid ∈ s → ':' ∉ p.data ∧ ("poll:" ++ p) ∈ tags) →
      ∀ p s, alistGet (tags.foldl (disconnectStep cid) subs) p = some s → cid ∉ s := by
  induction tags with
  | nil =>
    intro subs nd hinv p s hget hc
    exact absurd (hinv p s hget hc).2 (List.not_mem_nil _)
  | cons t ts ih =>
    intro subs nd hinv
    simp only [List.foldl_cons]
    refine ih _ (disconnectStep_nodup cid subs t nd) ?_
    intro p s hget hc
    obtain ⟨hold, htagne⟩ := disconnectStep_get_mem cid subs t p s nd hget hc
    obtain ⟨hcf, hmem⟩ := hinv p s hold hc
    refine ⟨hcf, ?_⟩
    rcases List.mem_cons.mp hmem with h | h
    · exact absurd h.symm (htagne hcf)
    · exact h

theorem disconnect_fold_other (cid cid2 : Nat) (hne2 : cid2 ≠ cid) (tags : List String) :
    ∀ subs, (subs.map Prod.fst).Nodup → ∀ p,
      ((∃ s, alistGet (tags.foldl (disconnectStep cid) subs) p = some s ∧ cid2 ∈ s) ↔
       (∃ s, alistGet subs p = some s ∧ cid2 ∈ s)) := by
  induction tags with
  | nil => exact fun subs nd p => Iff.rfl
  | cons t ts ih =>
    intro subs nd p
    simp only [List.foldl_cons]
    exact (ih _ (disconnectStep_nodup cid subs t nd) p).trans
      (disconnectStep_get_other cid cid2 subs t p hne2 nd)

theorem subscribe_preserves_noEmpty (db : DB) (st : WSState) (cid : Nat)
    (pollId : Option String) (hne : NoEmptyEntry st) :
    NoEmptyEntry (handleSubscribeToPoll db st cid pollId) := by
  unfold NoEmptyEntry at hne ⊢
  cases pollId with
  | none => simpa only [handleSubscribeToPoll, sendTo_subs] using hne
  | some pid =>
    by_cases hpe : pid = ""
    · simpa [handleSubscribeToPoll, hpe, sendTo_subs] using hne
    · cases hpf : pollFind db pid with
      | none => simpa [handleSubscribeToPoll, hpe, hpf, sendTo_subs] using hne
      | some poll =>
        by_cases hpub : poll.isPublished = true
        · simp only [handleSubscribeToPoll, hpe, hpf, hpub, if_neg, if_false,
            not_true_eq_false, sendTo_subs, ite_false, if_true, ite_true]
          intro p s hget
          by_cases hp : p = pid
          · subst hp
            rw [alistGet_alistSet_self] at hget
            rw [← Option.some.inj hget]
            exact setAdd_ne_nil _ _
          · rw [alistGet_alistSet_ne _ _ _ _ hp] at hget
            by_cases hs2 : (alistGet st.subs pid).isSome = true
            · rw [if_pos hs2] at hget
              exact hne p s hget
            · rw [if_neg hs2, alistGet_alistSet_ne _ _ _ _ hp] at hget
              exact hne p s hget
        · simpa [handleSubscribeToPoll, hpe, hpf, hpub, sendTo_subs] using hne

theorem unsubscribe_preserves_noEmpty (st : WSState) (cid : Nat) (pollId : Option String)
    (nd : (st.subs.map Prod.fst).Nodup) (hne : NoEmptyEntry st) :
    NoEmptyEntry (handleUnsubscribeFromPoll st cid pollId) := by
  unfold NoEmptyEntry at hne ⊢
  cases pollId with
  | none => exact hne
  | some pid =>
    by_cases hcond : (pid ≠ "" ∧ (alistGet st.subs pid).isSome = true)
    · simp only [handleUnsubscribeFromPoll, if_pos hcond, sendTo_subs]
      intro p s hget
      by_cases hemp : (setDelete ((alistGet st.subs pid).getD []) cid).isEmpty = true
      · rw [if_pos hemp] at hget
        by_cases hp : p = pid
        · subst hp
          rw [alistGet_alistDelete_self _ _ (by rwa [keys_alistSet_present _ _ _ hcond.2])] at hget
          exact absurd hget (by simp)
        · rw [alistGet_alistDelete_ne _ _ _ hp, alistGet_alistSet_ne _ _ _ _ hp] at hget
          exact hne p s hget
      · rw [if_neg hemp] at hget
        by_cases hp : p = pid
        · subst hp
          rw [alistGet_alistSet_self] at hget
          intro hnil
          have hs : setDelete ((alistGet st.subs p).getD []) cid = s := Option.some.inj hget
          rw [hs, hnil] at hemp
          exact hemp rfl
        · rw [alistGet_alistSet_ne _ _ _ _ hp] at hget
          exact hne p s hget
    · simp only [handleUnsubscribeFromPoll, if_neg hcond]
      exact hne

theorem disconnect_removes_conn (st : WSState) (cid : Nat) (hwf : WF st) :
    ∀ p, ¬ SubsHasConn (handleDisconnect st cid) p cid := by
  obtain ⟨nd, _, hcons, hcf⟩ := hwf
  rintro p ⟨s, hget, hmem⟩
  have hrem := disconnect_fold_removes cid (tagsOf st cid) st.subs nd ?_ p s hget
  · exact hrem hmem
  · intro q sq hq hcq
    refine ⟨hcf q (by rw [hq]; rfl), ?_⟩
    exact (hcons cid q).mp ⟨sq, hq, hcq⟩

/-- Claim C8: from a well-formed registry state, every handler leaves
no empty subscriber set behind, and after `handleDisconnect` the
connection is a member of no poll's subscriber set, so it is never a
recipient of a later `broadcastToPoll`. -/
theorem disconnect_cleanup_invariants (st : WSState) (hwf : WF st) :
    (∀ db cid pid, NoEmptyEntry (handleSubscribeToPoll db st cid pid)) ∧
    (∀ cid pid, NoEmptyEntry (handleUnsubscribeFromPoll st cid pid)) ∧
    (∀ cid, NoEmptyEntry (handleDisconnect st cid)) ∧
    (∀ cid p, ¬ SubsHasConn (handleDisconnect st cid) p cid) ∧
    (∀ cid p, cid ∉ openSubscribers (handleDisconnect st cid) p) ∧
    (∀ cid p payload ts m,
      m ∈ (broadcastToPoll (handleDisconnect st cid) p payload ts).outbox →
      m ∉ (handleDisconnect st cid).outbox → m.1 ≠ cid) := by
  obtain ⟨nd, hne, hcons, hcf⟩ := hwf
  have hrm := disconnect_removes_conn st
  refine ⟨fun db cid pid => subscribe_preserves_noEmpty db st cid pid hne,
    fun cid pid => unsubscribe_preserves_noEmpty st cid pid nd hne,
    fun cid => (disconnect_fold_nodup_noEmpty cid (tagsOf st cid) st.subs nd hne).2,
    fun cid => hrm cid ⟨nd, hne, hcons, hcf⟩,
    fun cid p hmem => ?_, fun cid p payload ts m hm hnotold => ?_⟩
  · unfold openSubscribers at hmem
    have hmem2 := List.mem_filter.mp hmem
    cases hg : alistGet (handleDisconnect st cid).subs p with
    | none =>
      rw [hg] at hmem2
      exact absurd hmem2.1 (List.not_mem_nil _)
    | some s =>
      rw [hg] at hmem2
      exact hrm cid ⟨nd, hne, hcons, hcf⟩ p ⟨s, hg, hmem2.1⟩
  · rw [broadcastToPoll_outbox] at hm
    rcases List.mem_append.mp hm with h | h
    · exact absurd h hnotold
    · obtain ⟨c, hc, rfl⟩ := List.mem_map.mp h
      intro hceq
      have hcc : c = cid := hceq
      rw [hcc] at hc
      unfold openSubscribers at hc
      have hc2 := List.mem_filter.mp hc
      cases hg : alistGet (handleDisconnect st cid).subs p with
      | none =>
        rw [hg] at hc2
        exact absurd hc2.1 (List.not_mem_nil _)
      | some s =>
        rw [hg] at hc2
        exact hrm cid ⟨nd, hne, hcons, hcf⟩ p ⟨s, hg, hc2.1⟩

/-- The one-subscriber registry `wsSub` is well formed. -/
theorem wsSub_wf : WF wsSub := by
  refine ⟨by decide, ?_, ?_, ?_⟩
  · intro p s hget
    by_cases hp : ("p1" : String) = p <;>
      simp only [wsSub, alistGet, hp, if_pos, if_neg] at hget <;>
      first
        | (rw [← Option.some.inj hget]; decide)
        | exact absurd hget (by simp)
  · intro cid p
    constructor
    · rintro ⟨s, hget, hmem⟩
      by_cases hp : ("p1" : String) = p
      · subst hp
        simp only [wsSub, alistGet, if_pos] at hget
        rw [← Option.some.inj hget] at hmem
        have : cid = 7 := by
          cases List.mem_singleton.mp hmem
          rfl
        subst this
        simp only [tagsOf, wsSub, alistGet]
        norm_num
        decide
      · simp only [wsSub, alistGet, hp, if_neg] at hget
        exact absurd hget (by simp)
    · intro hmem
      by_cases hc : (7 : Nat) = cid
      · subst hc
        simp only [tagsOf, wsSub, alistGet, if_pos] at hmem
        norm_num at hmem
        have hp : p = "p1" := by
          have := string_append_cancel_left "poll:" p "p1" (by simpa using hmem)
          exact this
        subst hp
        exact ⟨[7], by decide, by decide⟩
      · simp only [tagsOf, wsSub, alistGet, hc, if_neg] at hmem
        simp at hmem
  · intro p hget
    by_cases hp : ("p1" : String) = p
    · subst hp
      decide
    · simp only [wsSub, alistGet, hp, if_neg] at hget
      simp at hget

/-- Witness for C8 at the well-formed one-subscriber registry. -/
theorem disconnect_cleanup_invariants_witness :
    ¬ SubsHasConn (handleDisconnect wsSub 7) "p1" 7 :=
  (disconnect_cleanup_invariants wsSub wsSub_wf).2.2.2.1 7 "p1"

theorem shc_getD (m : List (String × List Nat)) (p : String) (c : Nat) :
    (∃ s, alistGet m p = some s ∧ c ∈ s) ↔ c ∈ (alistGet m p).getD [] := by
  cases h : alistGet m p <;> simp [h]

theorem consistent_iff_getD (st : WSState) :
    Consistent st ↔
      ∀ c p, (c ∈ (alistGet st.subs p).getD [] ↔
        ("poll:" ++ p) ∈ (alistGet st.connTags c).getD []) := by
  unfold Consistent SubsHasConn tagsOf
  constructor
  · intro h c p
    rw [← shc_getD st.subs p c]
    exact h c p
  · intro h c p
    rw [shc_getD st.subs p c]
    exact h c p

theorem consistent_sendTo (st : WSState) (c : Nat) (m : JVal) (h : Consistent st) :
    Consistent (sendTo st c m) := by
  rw [consistent_iff_getD] at h ⊢
  intro c2 p2
  rw [sendTo_subs, sendTo_connTags]
  exact h c2 p2

theorem poll_tag_inj (p q : String) (h : "poll:" ++ p = "poll:" ++ q) : p = q :=
  string_append_cancel_left "poll:" p q h

theorem subscribe_preserves_consistent (db : DB) (st : WSState) (cid : Nat)
    (pollId : Option String) (hcons : Consistent st) :
    Consistent (handleSubscribeToPoll db st cid pollId) := by
  cases pollId with
  | none => exact consistent_sendTo st cid _ hcons
  | some pid =>
    by_cases hpe : pid = ""
    · simp only [handleSubscribeToPoll]
      rw [if_pos hpe]
      exact consistent_sendTo st cid _ hcons
    · cases hpf : pollFind db pid with
      | none =>
        simp only [handleSubscribeToPoll]
        rw [if_neg hpe, hpf]
        exact consistent_sendTo st cid _ hcons
      | some poll =>
        by_cases hpub : poll.isPublished = true
        · simp only [handleSubscribeToPoll]
          rw [if_neg hpe, hpf]
          show Consistent (if ¬poll.isPublished = true then _ else _)
          rw [if_neg (not_not_intro hpub)]
          apply consistent_sendTo
          rw [consistent_iff_getD] at hcons ⊢
          intro c2 p2
          show c2 ∈ (alistGet (alistSet _ pid _) p2).getD [] ↔
            ("poll:" ++ p2) ∈ (alistGet (alistSet st.connTags cid _) c2).getD []
          have hcur : (alistGet (if (alistGet st.subs pid).isSome = true then st.subs
              else alistSet st.subs pid []) pid).getD ([] : List Nat) =
              (alistGet st.subs pid).getD [] := by
            by_cases hs : (alistGet st.subs pid).isSome = true
            · rw [if_pos hs]
            · rw [if_neg hs, alistGet_alistSet_self,
                Option.not_isSome_iff_eq_none.mp hs]
              rfl
          by_cases hp2 : p2 = pid
          · subst hp2
            rw [alistGet_alistSet_self, Option.getD_some, hcur]
            by_cases hc2 : c2 = cid
            · subst hc2
              rw [alistGet_alistSet_self, Option.getD_some]
              constructor
              · intro _
                exact (mem_setAdd _ _ _).mpr (Or.inr rfl)
              · intro _
                exact (mem_setAdd _ _ _).mpr (Or.inr rfl)
            · rw [alistGet_alistSet_ne _ _ _ _ hc2]
              rw [mem_setAdd]
              constructor
              · rintro (h | h)
                · exact (hcons c2 p2).mp h
                · exact absurd h hc2
              · intro h
                exact Or.inl ((hcons c2 p2).mpr h)
          · rw [alistGet_alistSet_ne _ _ _ _ hp2]
            have hsubs1 : alistGet (if (alistGet st.subs pid).isSome = true then st.subs
                else alistSet st.subs pid []) p2 = alistGet st.subs p2 := by
              by_cases hs : (alistGet st.subs pid).isSome = true
              · rw [if_pos hs]
              · rw [if_neg hs, alistGet_alistSet_ne _ _ _ _ hp2]
            rw [hsubs1]
            by_cases hc2 : c2 = cid
            · subst hc2
              rw [alistGet_alistSet_self, Option.getD_some, mem_setAdd]
              constructor
              · intro h
                exact Or.inl ((hcons c2 p2).mp h)
              · rintro (h | h)
                · exact (hcons c2 p2).mpr h
                · exact absurd (poll_tag_inj p2 pid h) hp2
            · rw [alistGet_alistSet_ne _ _ _ _ hc2]
              exact hcons c2 p2
        · simp only [handleSubscribeToPoll]
          rw [if_neg hpe, hpf]
          show Consistent (if ¬poll.isPublished = true then _ else _)
          rw [if_pos hpub]
          exact consistent_sendTo st cid _ hcons

theorem unsubscribe_preserves_consistent (st : WSState) (cid : Nat)
    (pollId : Option String) (nd : (st.subs.map Prod.fst).Nodup) (hcons : Consistent st) :
    Consistent (handleUnsubscribeFromPoll st cid pollId) := by
  cases pollId with
  | none => exact hcons
  | some pid =>
    by_cases hcond : (pid ≠ "" ∧ (alistGet st.subs pid).isSome = true)
    · simp only [handleUnsubscribeFromPoll, if_pos hcond]
      apply consistent_sendTo
      rw [consistent_iff_getD] at hcons ⊢
      intro c2 p2
      show (c2 ∈ (alistGet (if _ then alistDelete (alistSet st.subs pid _) pid
          else alistSet st.subs pid _) p2).getD []) ↔
        ("poll:" ++ p2) ∈ (alistGet (alistSet st.connTags cid _) c2).getD []
      obtain ⟨s0, hs0⟩ := Option.isSome_iff_exists.mp hcond.2
      have hgetD : (alistGet st.subs pid).getD [] = s0 := by rw [hs0]; rfl
      have hsub2 : ∀ q, c2 ∈ (alistGet (if (setDelete ((alistGet st.subs pid).getD []) cid).isEmpty = true
            then alistDelete (alistSet st.subs pid (setDelete ((alistGet st.subs pid).getD []) cid)) pid
            else alistSet st.subs pid (setDelete ((alistGet st.subs pid).getD []) cid)) q).getD [] ↔
          (if q = pid then (c2 ∈ s0 ∧ c2 ≠ cid) else c2 ∈ (alistGet st.subs q).getD []) := by
        intro q
        by_cases hq : q = pid
        · subst hq
          rw [if_pos rfl, hgetD]
          by_cases hemp : (setDelete s0 cid).isEmpty = true
          · rw [if_pos hemp]
            rw [alistGet_alistDelete_self _ _ (by rwa [keys_alistSet_present _ _ _ hcond.2])]
            rw [isEmpty_iff_eq_nil] at hemp
            simp only [Option.getD_none, List.not_mem_nil, false_iff]
            intro hx
            have : c2 ∈ setDelete s0 cid := (mem_setDelete _ _ _).mpr hx
            rw [hemp] at this
            exact absurd this (List.not_mem_nil _)
          · rw [if_neg hemp]
            rw [alistGet_alistSet_self, Option.getD_some]
            exact mem_setDelete s0 cid c2
        · rw [if_neg hq]
          by_cases hemp : (setDelete ((alistGet st.subs pid).getD []) cid).isEmpty = true
          · rw [if_pos hemp, alistGet_alistDelete_ne _ _ _ hq, alistGet_alistSet_ne _ _ _ _ hq]
          · rw [if_neg hemp, alistGet_alistSet_ne _ _ _ _ hq]
      rw [hsub2 p2]
      by_cases hc2 : c2 = cid
      · subst hc2
        rw [alistGet_alistSet_self, Option.getD_some, mem_setDelete]
        by_cases hp2 : p2 = pid
        · subst hp2
          rw [if_pos rfl]
          constructor
          · rintro ⟨_, hne⟩
            exact absurd rfl hne
          · rintro ⟨_, hne⟩
            exact absurd rfl hne
        · rw [if_neg hp2]
          constructor
          · intro h
            exact ⟨(hcons c2 p2).mp h, fun hx => hp2 (poll_tag_inj p2 pid hx)⟩
          · rintro ⟨h, _⟩
            exact (hcons c2 p2).mpr h
      · rw [alistGet_alistSet_ne _ _ _ _ hc2]
        by_cases hp2 : p2 = pid
        · subst hp2
          rw [if_pos rfl]
          constructor
          · rintro ⟨h, _⟩
            exact (hcons c2 p2).mp (by rw [hgetD]; exact h)
          · intro h
            refine ⟨by rw [← hgetD]; exact (hcons c2 p2).mpr h, hc2⟩
        · rw [if_neg hp2]
          exact hcons c2 p2
    · simp only [handleUnsubscribeFromPoll, if_neg hcond]
      exact hcons

/-- Claim C10 (amended): the two-map consistency invariant is
preserved in full by subscribe and unsubscribe handling; disconnect
preserves it for every other connection, and for the disconnected
connection only the forward direction survives (it is in no poll set,
vacuously), because the source never clears the connection's own
`ws.subscriptions` tag set. -/
theorem registry_consistency_preservation (st : WSState) (hwf : WF st) :
    (∀ db cid pid, Consistent (handleSubscribeToPoll db st cid pid)) ∧
    (∀ cid pid, Consistent (handleUnsubscribeFromPoll st cid pid)) ∧
    (∀ cid cid2 p, cid2 ≠ cid →
      (SubsHasConn (handleDisconnect st cid) p cid2 ↔
        ("poll:" ++ p) ∈ tagsOf (handleDisconnect st cid) cid2)) ∧
    (∀ cid p, SubsHasConn (handleDisconnect st cid) p cid →
      ("poll:" ++ p) ∈ tagsOf (handleDisconnect st cid) cid) := by
  obtain ⟨nd, hne, hcons, hcf⟩ := hwf
  refine ⟨fun db cid pid => subscribe_preserves_consistent db st cid pid hcons,
    fun cid pid => unsubscribe_preserves_consistent st cid pid nd hcons,
    fun cid cid2 p hne2 => ?_, fun cid p hshc => ?_⟩
  · have htags : tagsOf (handleDisconnect st cid) cid2 = tagsOf st cid2 := rfl
    rw [htags]
    have hsubs : SubsHasConn (handleDisconnect st cid) p cid2 ↔ SubsHasConn st p cid2 := by
      unfold SubsHasConn
      exact disconnect_fold_other cid cid2 hne2 (tagsOf st cid) st.subs nd p
    rw [hsubs]
    exact hcons cid2 p
  · exact absurd hshc (disconnect_removes_conn st cid ⟨nd, hne, hcons, hcf⟩ p)

/-- Counterexample to C10 as stated: in the well-formed one-subscriber
registry, after `handleDisconnect` the connection's own tag set still
holds `poll:p1` while the poll-to-connections map no longer does, so
the two-maps iff fails for the disconnected connection. -/
theorem registry_consistency_broken_by_disconnect :
    Consistent wsSub ∧ ¬ Consistent (handleDisconnect wsSub 7) := by
  refine ⟨wsSub_wf.2.2.1, fun h => ?_⟩
  have htag : ("poll:" ++ "p1") ∈ tagsOf (handleDisconnect wsSub 7) 7 := by decide
  obtain ⟨s, hs, _⟩ := (h 7 "p1").mpr htag
  have hsubs : (handleDisconnect wsSub 7).subs = [] := by rfl
  rw [hsubs] at hs
  exact absurd hs (by simp [alistGet])

/-- Witness for the amended C10 at the one-subscriber registry. -/
theorem registry_consistency_preservation_witness :
    Consistent (handleUnsubscribeFromPoll wsSub 7 (some "p1")) :=
  (registry_consistency_preservation wsSub wsSub_wf).2.1 7 (some "p1")

/-- Claim C9 (amended): when the pollId key is present in the registry
map, `handleUnsubscribeFromPoll` removes the relation in both
directions (pruning an emptied set), leaves every other poll entry
untouched, and sends `unsubscription_confirmed` exactly when the
connection is OPEN; when the message has no pollId, an empty one, or
the key is absent from the map, the handler does nothing at all — in
particular no confirmation reply is sent. -/
theorem unsubscribe_behavior (st : WSState) (cid : Nat) (pid : String)
    (nd : (st.subs.map Prod.fst).Nodup) :
    (pid ≠ "" → (alistGet st.subs pid).isSome = true →
      ¬ SubsHasConn (handleUnsubscribeFromPoll st cid (some pid)) pid cid ∧
      ("poll:" ++ pid) ∉ tagsOf (handleUnsubscribeFromPoll st cid (some pid)) cid ∧
      (∀ q, q ≠ pid →
        alistGet (handleUnsubscribeFromPoll st cid (some pid)).subs q = alistGet st.subs q) ∧
      (handleUnsubscribeFromPoll st cid (some pid)).outbox =
        st.outbox ++ (if alistGet st.conns cid = some 1 then
          [(cid, JVal.obj [("type", .str "unsubscription_confirmed"),
                           ("pollId", .str pid),
                           ("message", .str "Unsubscribed from poll updates")])]
          else [])) ∧
    ((pid = "" ∨ alistGet st.subs pid = none) →
      handleUnsubscribeFromPoll st cid (some pid) = st) ∧
    (handleUnsubscribeFromPoll st cid none = st) := by
  refine ⟨fun hpe hsome => ?_, fun habs => ?_, rfl⟩
  · have hcond : (pid ≠ "" ∧ (alistGet st.subs pid).isSome = true) := ⟨hpe, hsome⟩
    obtain ⟨s0, hs0⟩ := Option.isSome_iff_exists.mp hsome
    refine ⟨?_, ?_, ?_, ?_⟩
    · rintro ⟨s, hget, hmem⟩
      simp only [handleUnsubscribeFromPoll, if_pos hcond, sendTo_subs] at hget
      by_cases hemp : (setDelete ((alistGet st.subs pid).getD []) cid).isEmpty = true
      · rw [if_pos hemp,
          alistGet_alistDelete_self _ _ (by rwa [keys_alistSet_present _ _ _ hcond.2])] at hget
        exact absurd hget (by simp)
      · rw [if_neg hemp, alistGet_alistSet_self] at hget
        rw [← Option.some.inj hget] at hmem
        exact not_mem_setDelete_self _ cid hmem
    · unfold tagsOf
      simp only [handleUnsubscribeFromPoll, if_pos hcond, sendTo_connTags]
      rw [alistGet_alistSet_self, Option.getD_some]
      exact not_mem_setDelete_self _ _
    · intro q hq
      simp only [handleUnsubscribeFromPoll, if_pos hcond, sendTo_subs]
      by_cases hemp : (setDelete ((alistGet st.subs pid).getD []) cid).isEmpty = true
      · rw [if_pos hemp, alistGet_alistDelete_ne _ _ _ hq, alistGet_alistSet_ne _ _ _ _ hq]
      · rw [if_neg hemp, alistGet_alistSet_ne _ _ _ _ hq]
    · simp only [handleUnsubscribeFromPoll, if_pos hcond, sendTo]
      by_cases hopen : alistGet st.conns cid = some 1
      · rw [if_pos hopen, if_pos hopen]
      · rw [if_neg hopen, if_neg hopen, List.append_nil]
  · simp only [handleUnsubscribeFromPoll]
    rw [if_neg ?cond]
    case cond =>
      rcases habs with h | h
      · exact fun hc => hc.1 h
      · exact fun hc => by
          rw [h] at hc
          exact absurd hc.2 (by simp)

/-- Counterexample to C9 as stated: with an open connection and an
empty registry map, an `unsubscribe_from_poll` for p1 is a no-op that
sends nothing — the claimed `unsubscription_confirmed` reply is never
queued (the outbox stays empty). -/
theorem unsubscribe_absent_no_confirmation :
    handleUnsubscribeFromPoll stNoSub 0 (some "p1") = stNoSub ∧ stNoSub.outbox = [] :=
  ⟨rfl, rfl⟩

/-- Witness for the amended C9: unsubscribing the present relation in
the one-subscriber registry removes the connection from p1's set. -/
theorem unsubscribe_behavior_witness :
    ¬ SubsHasConn (handleUnsubscribeFromPoll wsSub 7 (some "p1")) "p1" 7 :=
  ((unsubscribe_behavior wsSub 7 "p1" (by decide)).1 (by decide) (by decide)).1

theorem castVote_ok_ws (sys : Sys) (pollId optionId userId newVoteId : String)
    (nowMs : Nat) (ts : String) (sys1 : Sys) (res : CastResult)
    (hok : castVote sys pollId optionId userId newVoteId nowMs ts = (sys1, .ok res)) :
    sys1.ws = broadcastVoteUpdate sys.ws pollId res.results userId optionId ts := by
  by_cases hguard : pollId = "" ∨ optionId = "" ∨ userId = ""
  · simp [castVote, hguard, Prod.ext_iff] at hok
  · cases hpf : pollFind sys.db pollId with
    | none => simp [castVote, hguard, hpf, Prod.ext_iff] at hok
    | some poll =>
      by_cases hpub : poll.isPublished
      · cases hopt : optionFind sys.db optionId with
        | none => simp [castVote, hguard, hpf, hpub, hopt, Prod.ext_iff] at hok
        | some opt =>
          by_cases heq : opt.pollId = pollId
          · have hp : pollId ≠ "" := fun h => hguard (Or.inl h)
            have hu : userId ≠ "" := fun h => hguard (Or.inr (Or.inr h))
            have hv := hasUserVotedOnPoll_eval sys.db pollId userId hp hu
            by_cases hvoted : (getUserVotesForPoll sys.db userId pollId).length > 0
            · simp [castVote, hguard, hpf, hpub, hopt, heq, hv, hvoted, Prod.ext_iff] at hok
            · have hnv : decide ((getUserVotesForPoll sys.db userId pollId).length > 0) = false := by
                simp [hvoted]
              cases hgr : getPollResults
                  { sys.db with votes := sys.db.votes ++
                      [{ id := newVoteId, userId := userId, pollOptionId := optionId,
                         createdAt := nowMs }] } pollId with
              | error e =>
                simp [castVote, hguard, hpf, hpub, hopt, heq, hv, hnv, hgr, Prod.ext_iff] at hok
              | ok r =>
                simp [castVote, hguard, hpf, hpub, hopt, heq, hv, hnv, hgr,
                  Prod.ext_iff] at hok
                obtain ⟨h1, h2⟩ := hok
                rw [← h1, ← h2]
          · simp [castVote, hguard, hpf, hpub, hopt, heq, Prod.ext_iff] at hok
      · simp [castVote, hguard, hpf, hpub, Prod.ext_iff] at hok

/-- Claim C4 (amended): every message that a successful `castVote`
broadcasts is the `poll_update` envelope with the pollId, a timestamp,
and a `data` field equal to the service's vote-update payload — the
computed PollResult nested under its `results` key together with the
payload's own `type: "vote_update"`, pollId, voting user, option and
timestamp — and it is queued to exactly the connections currently
subscribed to that poll whose readyState is OPEN. -/
theorem broadcast_envelope_shape (sys : Sys) (pollId optionId userId newVoteId : String)
    (nowMs : Nat) (ts : String) (sys1 : Sys) (res : CastResult)
    (hok : castVote sys pollId optionId userId newVoteId nowMs ts = (sys1, .ok res)) :
    sys1.ws.outbox = sys.ws.outbox ++
      (openSubscribers sys.ws pollId).map (fun c =>
        (c, pollUpdateMsg pollId
              (votePayloadJson pollId res.results userId optionId ts) ts)) := by
  rw [castVote_ok_ws sys pollId optionId userId newVoteId nowMs ts sys1 res hok]
  unfold broadcastVoteUpdate
  exact broadcastToPoll_outbox sys.ws pollId _ ts

/-- Counterexample to C4 as stated: in the concrete run where u2 votes
for o2 of the subscribed poll p1, the broadcast message's `data` field
is not the bare PollResult value — it lacks a `question` key and
carries a `userId` key, because the service wraps the result in its
vote-update payload before handing it to `broadcastToPoll`. -/
theorem broadcast_data_not_bare_poll_result :
    jGet "type" ((castC4.1.ws.outbox.headD (0, .str "")).2) = some (.str "poll_update") ∧
    jGet "data" ((castC4.1.ws.outbox.headD (0, .str "")).2) ≠ some (resultToJson r50) ∧
    (jGet "question"
      ((jGet "data" ((castC4.1.ws.outbox.headD (0, .str "")).2)).getD (.str ""))).isNone = true ∧
    (jGet "userId"
      ((jGet "data" ((castC4.1.ws.outbox.headD (0, .str "")).2)).getD (.str ""))).isSome = true := by
  refine ⟨rfl, ?_, rfl, rfl⟩
  intro h
  rw [show jGet "data" ((castC4.1.ws.outbox.headD (0, .str "")).2) =
      some (votePayloadJson "p1" r50 "u2" "o2" "T") from rfl] at h
  simp [votePayloadJson, resultToJson] at h

/-- Witness for the amended C4 at the concrete one-subscriber run. -/
theorem broadcast_envelope_shape_witness :
    castC4.1.ws.outbox = sysC4.ws.outbox ++
      (openSubscribers sysC4.ws "p1").map (fun c =>
        (c, pollUpdateMsg "p1" (votePayloadJson "p1" r50 "u2" "o2" "T") "T")) :=
  broadcast_envelope_shape sysC4 "p1" "o2" "u2" "v2" 5 "T" castC4.1
    { vote := { id := "v2", userId := "u2", pollOptionId := "o2", createdAt := 5 },
      results := r50 }
    (by rfl)

end Move37
